import Mathlib

/-!
Verification of the angular-cli schematic/job substrate against its source.

Part 1 embeds `NodeModuleJobRegistry` (wrap-enums.ts, the `_resolve` and
`get` members): module resolution, the `name.split(/#/, 2)` name parsing,
JS truthiness of the chosen export, and the `_getValue` schema defaulting.
-/

namespace AngularCLI

/-- Outcome of `require.resolve(name)` in the ambient Node environment:
either a resolved path or a raised error carrying its `code` string. -/
inductive ResolveRes where
  | resolved (path : String)
  | raisedCode (code : String)
deriving DecidableEq, Repr

/-- A JS value sitting in a schema position (`pkg.argument`, `handler.input`,
...): absent (`undefined`), a boolean JSON schema, an object JSON schema
(identified by a tag), or some non-schema value with the given truthiness. -/
inductive SchemaField where
  | undef
  | bool (b : Bool)
  | obj (tag : Nat)
  | nonSchema (truthy : Bool)
deriving DecidableEq, Repr

/-- `schema.isJsonSchema` from devkit core: JSON objects and booleans are
schemas. -/
def isJsonSchema : SchemaField → Bool
  | .bool _ => true
  | .obj _ => true
  | _ => false

/-- JS truthiness of a schema-position value. -/
def SchemaField.truthy : SchemaField → Bool
  | .undef => false
  | .bool b => b
  | .obj _ => true
  | .nonSchema t => t

/-- `_getValue(...fields)` of wrap-enums.ts:
`fields.find(x => schema.isJsonSchema(x)) || true`. `find` yields the first
JSON schema among the fields (or `undefined`), and `|| true` replaces a
falsy result (no schema found, or the schema `false`) by `true`. -/
def _getValue (fields : List SchemaField) : SchemaField :=
  match fields.find? isJsonSchema with
  | none => .bool true
  | some f => if f.truthy then f else .bool true

/-- The fields a handler function carries (`handler.argument`, ...). -/
structure HandlerData where
  argument : SchemaField
  input : SchemaField
  output : SchemaField
  channels : SchemaField
deriving DecidableEq, Repr

/-- A value read off a module export table: `undefined` (falsy) or a
handler function (truthy). -/
inductive HandlerVal where
  | undef
  | handler (h : HandlerData)
deriving DecidableEq, Repr

/-- JS truthiness of an export-table value. -/
def HandlerVal.truthy : HandlerVal → Bool
  | .undef => false
  | .handler _ => true

/-- What `require(resolvedPath)` yields: an export table plus the module
level schema declarations `pkg.argument`, `pkg.input`, `pkg.output`,
`pkg.channels`. -/
structure JsModule where
  exports : String → HandlerVal
  argument : SchemaField
  input : SchemaField
  output : SchemaField
  channels : SchemaField

/-- The ambient Node environment: `require.resolve` and `require`. -/
structure NodeEnv where
  resolve : String → ResolveRes
  require : String → JsModule

/-- Split a string at every occurrence of the character between segments,
as the JS regexp split by a hash does (no limit yet). -/
def splitHashAux : List Char → List Char → List (List Char)
  | [], acc => [acc.reverse]
  | c :: rest, acc =>
    if c = '#' then acc.reverse :: splitHashAux rest []
    else splitHashAux rest (c :: acc)

/-- All hash-separated segments of a job name. -/
def splitHash (name : String) : List String :=
  (splitHashAux name.toList []).map (fun cs => String.mk cs)

/-- `name.split(/#/, 2)[0]`: the segment before the first hash. -/
def moduleNameOf (name : String) : String :=
  (splitHash name).headD ""

/-- `name.split(/#/, 2)[1]`: the segment between the first and the second
hash, `undefined` (`none`) when the name has no hash. A `split` with limit
2 keeps only the first two segments, so anything after a second hash is
discarded. -/
def exportNameOf (name : String) : Option String :=
  (splitHash name).get? 1

/-- `exportName || 'default'`: the export looked up in the module, with the
empty string falsy in JS. -/
def chosenExport (name : String) : String :=
  match exportNameOf name with
  | none => "default"
  | some e => if e = "" then "default" else e

/-- Spec reading of the name for comparison: everything after the FIRST
hash is the export name (`"m#b#c"` would pick export `"b#c"`). Written
from the words of the claim, not from the source. -/
def chosenExportSpec (name : String) : String :=
  match splitHash name with
  | [] => "default"
  | [_] => "default"
  | _ :: rest =>
    let e := String.intercalate "#" rest
    if e = "" then "default" else e

/-- `NodeModuleJobRegistry._resolve`: `require.resolve(name)`, catching the
raised error and returning `null` exactly when its code is
`MODULE_NOT_FOUND`; any other raised error propagates. -/
def NodeModuleJobRegistry._resolve (env : NodeEnv) (name : String) :
    Except String (Option String) :=
  match env.resolve name with
  | .resolved p => .ok (some p)
  | .raisedCode code =>
    if code = "MODULE_NOT_FOUND" then .ok none else .error code

/-- The job handler `get` yields: the bound handler function plus the
`jobDescription` schemas computed by `_getValue`. -/
structure JobHandler where
  handler : HandlerData
  argument : SchemaField
  input : SchemaField
  output : SchemaField
  channels : SchemaField
deriving DecidableEq, Repr

/-- `NodeModuleJobRegistry.get(name)`: split the name with
`name.split(/#/, 2)`, resolve the module part (propagating non
MODULE_NOT_FOUND errors), return `null` when resolution or the chosen
export lookup fails, otherwise the handler with its schemas. -/
def NodeModuleJobRegistry.get (env : NodeEnv) (name : String) :
    Except String (Option JobHandler) :=
  match NodeModuleJobRegistry._resolve env (moduleNameOf name) with
  | .error e => .error e
  | .ok none => .ok none
  | .ok (some resolvedPath) =>
    let pkg := env.require resolvedPath
    match pkg.exports (chosenExport name) with
    | .undef => .ok none
    | .handler h =>
      .ok (some
        { handler := h
          argument := _getValue [pkg.argument, h.argument]
          input := _getValue [pkg.input, h.input]
          output := _getValue [pkg.output, h.output]
          channels := _getValue [pkg.channels, h.channels] })

/-- Environment used by the C2 counterexample and several witnesses: the
name `m` resolves to a module with an empty export table; every other
name raises MODULE_NOT_FOUND. -/
def envBothNull : NodeEnv where
  resolve := fun n => if n = "m" then .resolved "/m" else .raisedCode "MODULE_NOT_FOUND"
  require := fun _ =>
    { exports := fun _ => .undef
      argument := .undef, input := .undef, output := .undef, channels := .undef }

/-- Environment whose resolution of the name `bad` raises an error with a
code other than MODULE_NOT_FOUND. -/
def envMalformed : NodeEnv where
  resolve := fun n =>
    if n = "bad" then .raisedCode "ERR_INVALID_ARG_VALUE" else .raisedCode "MODULE_NOT_FOUND"
  require := fun _ =>
    { exports := fun _ => .undef
      argument := .undef, input := .undef, output := .undef, channels := .undef }

/-- C1: `get(name)` yields the not-found signal (`null`) when the module
path of the name raises MODULE_NOT_FOUND from `require.resolve`, and a
resolution error with any other code is thrown out of `get` rather than
converted to the not-found signal. -/
theorem C1_get_notFound_vs_thrown (env : NodeEnv) (name : String) :
    (env.resolve (moduleNameOf name) = .raisedCode "MODULE_NOT_FOUND" →
      NodeModuleJobRegistry.get env name = .ok none) ∧
    (∀ code, env.resolve (moduleNameOf name) = .raisedCode code →
      code ≠ "MODULE_NOT_FOUND" →
      NodeModuleJobRegistry.get env name = .error code) := by
  constructor
  · intro h
    simp [NodeModuleJobRegistry.get, NodeModuleJobRegistry._resolve, h]
  · intro code h hne
    simp [NodeModuleJobRegistry.get, NodeModuleJobRegistry._resolve, h, hne]

/-- C1 witness: both branches evaluated on a concrete environment, an
unresolvable name on the left, a name raising a different code on the
right. -/
theorem C1_get_notFound_vs_thrown_witness :
    NodeModuleJobRegistry.get envBothNull "nope" = .ok none ∧
    NodeModuleJobRegistry.get envMalformed "bad" = .error "ERR_INVALID_ARG_VALUE" :=
  ⟨(C1_get_notFound_vs_thrown envBothNull "nope").1 rfl,
   (C1_get_notFound_vs_thrown envMalformed "bad").2 "ERR_INVALID_ARG_VALUE" rfl (by decide)⟩

/-- C2 counterexample: in `envBothNull`, the name `n#s` has an
unresolvable module path while the name `m#s` has a module that resolves
but lacks the requested export; `get` yields `Except.ok none` for both, so
the two failures are mapped to the same result value, not distinguishable
by the caller. -/
theorem C2_counterexample :
    envBothNull.resolve (moduleNameOf "n#s") = .raisedCode "MODULE_NOT_FOUND" ∧
    envBothNull.resolve (moduleNameOf "m#s") = .resolved "/m" ∧
    ((envBothNull.require "/m").exports (chosenExport "m#s")).truthy = false ∧
    NodeModuleJobRegistry.get envBothNull "n#s" = .ok none ∧
    NodeModuleJobRegistry.get envBothNull "m#s" = .ok none :=
  ⟨rfl, rfl, rfl, rfl, rfl⟩

/-- C2 (amended): the two failure outcomes are NOT distinguishable: both
an unresolvable module path and a resolved module whose chosen export is
missing (falsy) make `get` yield the same not-found value
`Except.ok none`. -/
theorem C2_both_failures_yield_null (env : NodeEnv) (name : String) :
    (env.resolve (moduleNameOf name) = .raisedCode "MODULE_NOT_FOUND" →
      NodeModuleJobRegistry.get env name = .ok none) ∧
    (∀ p, env.resolve (moduleNameOf name) = .resolved p →
      ((env.require p).exports (chosenExport name)).truthy = false →
      NodeModuleJobRegistry.get env name = .ok none) := by
  constructor
  · intro h
    simp [NodeModuleJobRegistry.get, NodeModuleJobRegistry._resolve, h]
  · intro p h hfalsy
    have hundef : (env.require p).exports (chosenExport name) = .undef := by
      cases hv : (env.require p).exports (chosenExport name) with
      | undef => rfl
      | handler hd => rw [hv] at hfalsy; simp [HandlerVal.truthy] at hfalsy
    simp [NodeModuleJobRegistry.get, NodeModuleJobRegistry._resolve, h, hundef]

/-- C2 amended witness: both branches at concrete inputs of
`envBothNull`. -/
theorem C2_both_failures_yield_null_witness :
    NodeModuleJobRegistry.get envBothNull "n#s" = .ok none ∧
    NodeModuleJobRegistry.get envBothNull "m#s" = .ok none :=
  ⟨(C2_both_failures_yield_null envBothNull "n#s").1 rfl,
   (C2_both_failures_yield_null envBothNull "m#s").2 "/m" rfl rfl⟩

/-- Environment for the C3 counterexample: the module `declared` declares
the explicit accept-anything schema `true` for argument, input, output and
channels; the module `undeclared` (and both default handlers) declares no
schema at all. -/
def envSchemaDefault : NodeEnv where
  resolve := fun n =>
    if n = "declared" then .resolved "/declared"
    else if n = "undeclared" then .resolved "/undeclared"
    else .raisedCode "MODULE_NOT_FOUND"
  require := fun p =>
    if p = "/declared" then
      { exports := fun e =>
          if e = "default" then .handler ⟨.undef, .undef, .undef, .undef⟩ else .undef
        argument := .bool true, input := .bool true
        output := .bool true, channels := .bool true }
    else
      { exports := fun e =>
          if e = "default" then .handler ⟨.undef, .undef, .undef, .undef⟩ else .undef
        argument := .undef, input := .undef, output := .undef, channels := .undef }

/-- C3 counterexample: one module declares the explicit accept-anything
schema `true` everywhere, the other module and handler declare no schema
at all, yet `get` attaches identical schemas to both handlers (`_getValue`
turns absence into `true`): the two cases are not distinguished. -/
theorem C3_counterexample :
    (envSchemaDefault.require "/declared").argument = .bool true ∧
    (envSchemaDefault.require "/undeclared").argument = .undef ∧
    (envSchemaDefault.require "/undeclared").exports "default" =
      .handler ⟨.undef, .undef, .undef, .undef⟩ ∧
    NodeModuleJobRegistry.get envSchemaDefault "declared" =
      NodeModuleJobRegistry.get envSchemaDefault "undeclared" :=
  ⟨rfl, rfl, rfl, rfl⟩

/-- C3 (amended): absence of a declared schema is collapsed into the
accept-anything value `true`: when neither the module nor the handler
declares an argument schema, the handler returned by `get` carries
argument schema `true`, exactly as when the module declares the explicit
`true` schema. -/
theorem C3_absent_schema_collapses_to_true (env : NodeEnv) (name : String)
    (p : String) (hd : HandlerData)
    (hres : env.resolve (moduleNameOf name) = .resolved p)
    (hexp : (env.require p).exports (chosenExport name) = .handler hd) :
    ∃ jh, NodeModuleJobRegistry.get env name = .ok (some jh) ∧
      jh.handler = hd ∧
      ((env.require p).argument = .undef → hd.argument = .undef →
        jh.argument = .bool true) ∧
      ((env.require p).argument = .bool true → jh.argument = .bool true) := by
  refine ⟨{ handler := hd
            argument := _getValue [(env.require p).argument, hd.argument]
            input := _getValue [(env.require p).input, hd.input]
            output := _getValue [(env.require p).output, hd.output]
            channels := _getValue [(env.require p).channels, hd.channels] },
    by simp [NodeModuleJobRegistry.get, NodeModuleJobRegistry._resolve, hres, hexp],
    rfl, ?_, ?_⟩
  · intro h1 h2
    simp [_getValue, h1, h2, isJsonSchema]
  · intro h1
    simp [_getValue, h1, isJsonSchema, List.find?, SchemaField.truthy]

/-- C3 amended witness: the undeclared module of `envSchemaDefault` gets
the argument schema `true`, and so does the explicitly declared one. -/
theorem C3_absent_schema_collapses_to_true_witness :
    ∃ jh, NodeModuleJobRegistry.get envSchemaDefault "undeclared" = .ok (some jh) ∧
      jh.handler = (⟨.undef, .undef, .undef, .undef⟩ : HandlerData) ∧
      ((envSchemaDefault.require "/undeclared").argument = .undef →
        SchemaField.undef = .undef →
        jh.argument = .bool true) ∧
      ((envSchemaDefault.require "/undeclared").argument = .bool true →
        jh.argument = .bool true) :=
  C3_absent_schema_collapses_to_true envSchemaDefault "undeclared" "/undeclared"
    ⟨.undef, .undef, .undef, .undef⟩ rfl rfl

/-- Environment for the C9 counterexample: the module `m` resolves and
its module object has exactly one export, under the key containing a
hash (`b#c`); every other export, `b` included, is `undefined`. -/
def envTwoHashes : NodeEnv where
  resolve := fun n => if n = "m" then .resolved "/m" else .raisedCode "MODULE_NOT_FOUND"
  require := fun _ =>
    { exports := fun e =>
        if e = "b#c" then .handler ⟨.undef, .undef, .undef, .undef⟩ else .undef
      argument := .undef, input := .undef, output := .undef, channels := .undef }

/-- C9 counterexample: for the name `m#b#c`, splitting at the FIRST hash
would choose the export `b#c`, which is a truthy export of the resolved
module, so the claim predicts a non-null handler; but
`name.split(/#/, 2)` keeps only the segment between the first and second
hash (`b`), which is missing, and `get` returns the not-found value. -/
theorem C9_counterexample :
    envTwoHashes.resolve (moduleNameOf "m#b#c") = .resolved "/m" ∧
    chosenExportSpec "m#b#c" = "b#c" ∧
    ((envTwoHashes.require "/m").exports (chosenExportSpec "m#b#c")).truthy = true ∧
    chosenExport "m#b#c" = "b" ∧
    NodeModuleJobRegistry.get envTwoHashes "m#b#c" = .ok none :=
  ⟨rfl, rfl, rfl, rfl, rfl⟩

/-- C9 (amended): the name is split as `name.split(/#/, 2)`: module path
before the first hash, export name the segment between the first and
second hash (anything later is discarded); a missing or empty export name
selects `default`; and `get` yields a non-null handler exactly when the
module path resolves and the chosen export is truthy. -/
theorem C9_split_default_and_truthiness (env : NodeEnv) (name : String) :
    ((exportNameOf name = none ∨ exportNameOf name = some "") →
      chosenExport name = "default") ∧
    ((∃ jh, NodeModuleJobRegistry.get env name = .ok (some jh)) ↔
      (∃ p, env.resolve (moduleNameOf name) = .resolved p ∧
        ((env.require p).exports (chosenExport name)).truthy = true)) := by
  constructor
  · rintro (h | h) <;> simp [chosenExport, h]
  · constructor
    · rintro ⟨jh, hjh⟩
      unfold NodeModuleJobRegistry.get NodeModuleJobRegistry._resolve at hjh
      cases hres : env.resolve (moduleNameOf name) with
      | resolved p =>
        rw [hres] at hjh
        simp only [] at hjh
        refine ⟨p, rfl, ?_⟩
        cases hexp : (env.require p).exports (chosenExport name) with
        | undef => simp [hexp] at hjh
        | handler hd => simp [hexp, HandlerVal.truthy]
      | raisedCode code =>
        rw [hres] at hjh
        by_cases hc : code = "MODULE_NOT_FOUND" <;> simp [hc] at hjh
    · rintro ⟨p, hres, htruthy⟩
      cases hexp : (env.require p).exports (chosenExport name) with
      | undef => rw [hexp] at htruthy; simp [HandlerVal.truthy] at htruthy
      | handler hd =>
        refine ⟨{ handler := hd
                  argument := _getValue [(env.require p).argument, hd.argument]
                  input := _getValue [(env.require p).input, hd.input]
                  output := _getValue [(env.require p).output, hd.output]
                  channels := _getValue [(env.require p).channels, hd.channels] }, ?_⟩
        simp [NodeModuleJobRegistry.get, NodeModuleJobRegistry._resolve, hres, hexp]

/-- C9 amended witness: on `envTwoHashes`, the name `m#b#c` has no
non-null handler, from right to left of the characterization; and a name
with no hash selects the default export. -/
theorem C9_split_default_and_truthiness_witness :
    chosenExport "m" = "default" ∧
    ((∃ jh, NodeModuleJobRegistry.get envTwoHashes "m#b#c" = .ok (some jh)) ↔
      (∃ p, envTwoHashes.resolve (moduleNameOf "m#b#c") = .resolved p ∧
        ((envTwoHashes.require p).exports (chosenExport "m#b#c")).truthy = true)) :=
  ⟨(C9_split_default_and_truthiness envTwoHashes "m").1 (Or.inl rfl),
   (C9_split_default_and_truthiness envTwoHashes "m#b#c").2⟩

/-!
Part 2: the Virtual Tree staging model. The Tree implementation itself is
not among the repository files given here, so it is modelled from the spec
(sections 3, 4.1 and 8).
-/

/-- Modelled from the spec: a staged Tree operation on one path
(`create`/`overwrite`/`delete` of section 4.1; `rename` is not needed by
the claim). -/
inductive TreeOp where
  | create (path content : String)
  | overwrite (path content : String)
  | delete (path : String)
deriving DecidableEq, Repr

/-- Modelled from the spec: the precondition errors of section 4.1. -/
inductive TreeError where
  | PathAlreadyExistsError (path : String)
  | PathDoesNotExistError (path : String)
deriving DecidableEq, Repr

/-- Modelled from the spec: a Tree is an append-only action log over a
base file store (path to optional content). -/
structure Tree where
  base : String → Option String
  log : List TreeOp

/-- Replay one staged operation over the effective content of one path. -/
def replayOp (p : String) (st : Option String) : TreeOp → Option String
  | .create q c => if q = p then some c else st
  | .overwrite q c => if q = p then some c else st
  | .delete q => if q = p then none else st

/-- `read(path)`: the effective content of a path, the action log replayed
over the base store; unaffected paths fall through to the base store. -/
def readPath (t : Tree) (p : String) : Option String :=
  t.log.foldl (replayOp p) (t.base p)

/-- A path currently exists when its effective content is not `none`. -/
def currentExists (t : Tree) (p : String) : Bool :=
  (readPath t p).isSome

/-- `create(path, content)`: fails with `PathAlreadyExistsError` when a
live file exists at the path (prior staged actions considered). -/
def Tree.create (t : Tree) (p c : String) : Except TreeError Tree :=
  if currentExists t p then .error (.PathAlreadyExistsError p)
  else .ok { t with log := t.log ++ [.create p c] }

/-- `overwrite(path, content)`: fails with `PathDoesNotExistError` when
there is no prior create and no existing file. -/
def Tree.overwrite (t : Tree) (p c : String) : Except TreeError Tree :=
  if currentExists t p then .ok { t with log := t.log ++ [.overwrite p c] }
  else .error (.PathDoesNotExistError p)

/-- `delete(path)`: fails with `PathDoesNotExistError` when the path does
not currently exist. -/
def Tree.delete (t : Tree) (p : String) : Except TreeError Tree :=
  if currentExists t p then .ok { t with log := t.log ++ [.delete p] }
  else .error (.PathDoesNotExistError p)

/-- Stage one operation through its precondition-checked entry point. -/
def stageOp (t : Tree) : TreeOp → Except TreeError Tree
  | .create p c => t.create p c
  | .overwrite p c => t.overwrite p c
  | .delete p => t.delete p

/-- Stage a whole sequence; the first violated precondition aborts. -/
def stageAll (t : Tree) : List TreeOp → Except TreeError Tree
  | [] => .ok t
  | op :: rest =>
    match stageOp t op with
    | .error e => .error e
    | .ok t2 => stageAll t2 rest

/-- The finalized effective action for one path: no action, a create
carrying content, an overwrite carrying content, or a delete. -/
inductive EffAction where
  | noChange
  | created (content : String)
  | overwritten (content : String)
  | deleted
deriving DecidableEq, Repr

/-- One step of the per-path fold that de-duplicates the action log:
create after delete becomes an overwrite of the base file, overwrite
keeps the kind of a pending create, delete cancels a pending create. -/
def effStep (p : String) (s : EffAction) : TreeOp → EffAction
  | .create q c =>
    if q = p then (match s with | .deleted => .overwritten c | _ => .created c) else s
  | .overwrite q c =>
    if q = p then (match s with | .created _ => .created c | _ => .overwritten c) else s
  | .delete q =>
    if q = p then (match s with | .created _ => .noChange | _ => .deleted) else s

/-- The effective action set exposed for commit: the fold of the action
log per path. -/
def effectiveAction (t : Tree) (p : String) : EffAction :=
  t.log.foldl (effStep p) .noChange

/-- What committing one effective action does to the base content of its
path. -/
def applyEff (s : EffAction) (b : Option String) : Option String :=
  match s with
  | .noChange => b
  | .created c => some c
  | .overwritten c => some c
  | .deleted => none

/-- The per-path coherence invariant between the replay semantics of the
log and its per-path fold. -/
def TreeInv (t : Tree) (p : String) : Prop :=
  applyEff (effectiveAction t p) (t.base p) = readPath t p ∧
  (effectiveAction t p = .noChange → readPath t p = t.base p) ∧
  (∀ c, effectiveAction t p = .created c → t.base p = none)

theorem readPath_append (t : Tree) (op : TreeOp) (p : String) :
    readPath { t with log := t.log ++ [op] } p = replayOp p (readPath t p) op := by
  simp [readPath, List.foldl_append]

theorem effectiveAction_append (t : Tree) (op : TreeOp) (p : String) :
    effectiveAction { t with log := t.log ++ [op] } p =
      effStep p (effectiveAction t p) op := by
  simp [effectiveAction, List.foldl_append]

/-- The path an operation acts on. -/
def opPath : TreeOp → String
  | .create q _ => q
  | .overwrite q _ => q
  | .delete q => q

theorem treeInv_append_other (t : Tree) (op : TreeOp) (p : String)
    (hinv : TreeInv t p) (hop : opPath op ≠ p) :
    TreeInv { t with log := t.log ++ [op] } p := by
  obtain ⟨happ, hnc, hcr⟩ := hinv
  have hre : readPath { t with log := t.log ++ [op] } p = readPath t p := by
    rw [readPath_append]; cases op <;> simp_all [replayOp, opPath]
  have heff : effectiveAction { t with log := t.log ++ [op] } p = effectiveAction t p := by
    rw [effectiveAction_append]; cases op <;> simp_all [effStep, opPath]
  exact ⟨by rw [heff, hre]; exact happ, by rw [heff, hre]; exact hnc,
    by rw [heff]; exact hcr⟩

theorem treeInv_append_create (t : Tree) (p c : String)
    (hinv : TreeInv t p) (hnone : readPath t p = none) :
    TreeInv { t with log := t.log ++ [TreeOp.create p c] } p := by
  obtain ⟨happ, hnc, hcr⟩ := hinv
  have hre : readPath { t with log := t.log ++ [TreeOp.create p c] } p = some c := by
    rw [readPath_append]; simp [replayOp]
  have heff := effectiveAction_append t (TreeOp.create p c) p
  cases hs : effectiveAction t p with
  | noChange =>
    have hb : t.base p = none := by rw [← hnc hs]; exact hnone
    refine ⟨?_, ?_, ?_⟩
    · simp [heff, hs, hre, effStep, applyEff]
    · intro hcon; rw [heff, hs] at hcon; simp [effStep] at hcon
    · intro c2 _; exact hb
  | created c0 =>
    rw [hs, hnone] at happ
    exact absurd happ (by simp [applyEff])
  | overwritten c0 =>
    rw [hs, hnone] at happ
    exact absurd happ (by simp [applyEff])
  | deleted =>
    refine ⟨?_, ?_, ?_⟩
    · simp [heff, hs, hre, effStep, applyEff]
    · intro hcon; rw [heff, hs] at hcon; simp [effStep] at hcon
    · intro c2 hcon; rw [heff, hs] at hcon; simp [effStep] at hcon

theorem treeInv_append_overwrite (t : Tree) (p c x : String)
    (hinv : TreeInv t p) (hsome : readPath t p = some x) :
    TreeInv { t with log := t.log ++ [TreeOp.overwrite p c] } p := by
  obtain ⟨happ, hnc, hcr⟩ := hinv
  have hre : readPath { t with log := t.log ++ [TreeOp.overwrite p c] } p = some c := by
    rw [readPath_append]; simp [replayOp]
  have heff := effectiveAction_append t (TreeOp.overwrite p c) p
  cases hs : effectiveAction t p with
  | noChange =>
    refine ⟨?_, ?_, ?_⟩
    · simp [heff, hs, hre, effStep, applyEff]
    · intro hcon; rw [heff, hs] at hcon; simp [effStep] at hcon
    · intro c2 hcon; rw [heff, hs] at hcon; simp [effStep] at hcon
  | created c0 =>
    refine ⟨?_, ?_, ?_⟩
    · simp [heff, hs, hre, effStep, applyEff]
    · intro hcon; rw [heff, hs] at hcon; simp [effStep] at hcon
    · intro c2 _; exact hcr c0 hs
  | overwritten c0 =>
    refine ⟨?_, ?_, ?_⟩
    · simp [heff, hs, hre, effStep, applyEff]
    · intro hcon; rw [heff, hs] at hcon; simp [effStep] at hcon
    · intro c2 hcon; rw [heff, hs] at hcon; simp [effStep] at hcon
  | deleted =>
    rw [hs, hsome] at happ
    exact absurd happ (by simp [applyEff])

theorem treeInv_append_delete (t : Tree) (p x : String)
    (hinv : TreeInv t p) (hsome : readPath t p = some x) :
    TreeInv { t with log := t.log ++ [TreeOp.delete p] } p := by
  obtain ⟨happ, hnc, hcr⟩ := hinv
  have hre : readPath { t with log := t.log ++ [TreeOp.delete p] } p = none := by
    rw [readPath_append]; simp [replayOp]
  have heff := effectiveAction_append t (TreeOp.delete p) p
  cases hs : effectiveAction t p with
  | noChange =>
    refine ⟨?_, ?_, ?_⟩
    · simp [heff, hs, hre, effStep, applyEff]
    · intro hcon; rw [heff, hs] at hcon; simp [effStep] at hcon
    · intro c2 hcon; rw [heff, hs] at hcon; simp [effStep] at hcon
  | created c0 =>
    have hb : t.base p = none := hcr c0 hs
    refine ⟨?_, ?_, ?_⟩
    · simp [heff, hs, hre, effStep, applyEff, hb]
    · intro _; rw [hre]; exact hb.symm
    · intro c2 hcon; rw [heff, hs] at hcon; simp [effStep] at hcon
  | overwritten c0 =>
    refine ⟨?_, ?_, ?_⟩
    · simp [heff, hs, hre, effStep, applyEff]
    · intro hcon; rw [heff, hs] at hcon; simp [effStep] at hcon
    · intro c2 hcon; rw [heff, hs] at hcon; simp [effStep] at hcon
  | deleted =>
    rw [hs, hsome] at happ
    exact absurd happ (by simp [applyEff])

theorem treeInv_stageOp (t t2 : Tree) (op : TreeOp) (p : String)
    (hinv : TreeInv t p) (h : stageOp t op = .ok t2) :
    TreeInv t2 p ∧ t2.base = t.base := by
  cases op with
  | create q c =>
    simp only [stageOp, Tree.create] at h
    by_cases hex : currentExists t q = true
    · rw [if_pos hex] at h; exact absurd h (by simp)
    · rw [if_neg hex] at h
      simp only [Except.ok.injEq] at h
      subst h
      refine ⟨?_, rfl⟩
      by_cases hq : q = p
      · subst hq
        have hnone : readPath t q = none := by
          cases hr : readPath t q with
          | none => rfl
          | some y => exact absurd (by simp [currentExists, hr]) hex
        exact treeInv_append_create t q c hinv hnone
      · exact treeInv_append_other t _ p hinv (by simpa [opPath] using hq)
  | overwrite q c =>
    simp only [stageOp, Tree.overwrite] at h
    by_cases hex : currentExists t q = true
    · rw [if_pos hex] at h
      simp only [Except.ok.injEq] at h
      subst h
      refine ⟨?_, rfl⟩
      by_cases hq : q = p
      · subst hq
        obtain ⟨x, hx⟩ := Option.isSome_iff_exists.mp hex
        exact treeInv_append_overwrite t q c x hinv hx
      · exact treeInv_append_other t _ p hinv (by simpa [opPath] using hq)
    · rw [if_neg hex] at h; exact absurd h (by simp)
  | delete q =>
    simp only [stageOp, Tree.delete] at h
    by_cases hex : currentExists t q = true
    · rw [if_pos hex] at h
      simp only [Except.ok.injEq] at h
      subst h
      refine ⟨?_, rfl⟩
      by_cases hq : q = p
      · subst hq
        obtain ⟨x, hx⟩ := Option.isSome_iff_exists.mp hex
        exact treeInv_append_delete t q x hinv hx
      · exact treeInv_append_other t _ p hinv (by simpa [opPath] using hq)
    · rw [if_neg hex] at h; exact absurd h (by simp)

theorem treeInv_stageAll (ops : List TreeOp) (t t2 : Tree) (p : String)
    (hinv : TreeInv t p) (h : stageAll t ops = .ok t2) :
    TreeInv t2 p ∧ t2.base = t.base := by
  induction ops generalizing t with
  | nil =>
    simp only [stageAll, Except.ok.injEq] at h
    subst h
    exact ⟨hinv, rfl⟩
  | cons op rest ih =>
    simp only [stageAll] at h
    cases hop : stageOp t op with
    | error e => rw [hop] at h; exact absurd h (by simp)
    | ok tmid =>
      rw [hop] at h
      obtain ⟨hmid, hbase⟩ := treeInv_stageOp t tmid op p hinv hop
      obtain ⟨hfin, hbase2⟩ := ih tmid hmid h
      exact ⟨hfin, hbase2.trans hbase⟩

theorem treeInv_empty (b : String → Option String) (p : String) :
    TreeInv ⟨b, []⟩ p := by
  refine ⟨rfl, fun _ => rfl, fun c hc => ?_⟩
  simp [effectiveAction] at hc

/-- C4: for every sequence of create/overwrite/delete operations staged on
a Tree, the finalized effective action per path equals the fold of the
log (committing the folded action reproduces the replayed content);
create then delete collapses to no action, create then overwrite collapses
to one create carrying the latest content; and overwrite or delete on a
path with no existing file and no prior create always fails with
`PathDoesNotExistError`. -/
theorem C4_tree_fold_and_preconditions (b : String → Option String)
    (p c1 c2 : String) (hb : b p = none) :
    (∀ ops t2, stageAll ⟨b, []⟩ ops = .ok t2 →
      ∀ q, applyEff (effectiveAction t2 q) (b q) = readPath t2 q) ∧
    (∃ t2, stageAll ⟨b, []⟩ [TreeOp.create p c1, TreeOp.delete p] = .ok t2 ∧
      effectiveAction t2 p = .noChange) ∧
    (∃ t2, stageAll ⟨b, []⟩ [TreeOp.create p c1, TreeOp.overwrite p c2] = .ok t2 ∧
      effectiveAction t2 p = .created c2) ∧
    (∀ t : Tree, ∀ q c, currentExists t q = false →
      t.overwrite q c = .error (.PathDoesNotExistError q)) ∧
    (∀ t : Tree, ∀ q, currentExists t q = false →
      t.delete q = .error (.PathDoesNotExistError q)) := by
  refine ⟨?_, ?_, ?_, ?_, ?_⟩
  · intro ops t2 hst q
    obtain ⟨⟨happ, _, _⟩, hbase⟩ :=
      treeInv_stageAll ops ⟨b, []⟩ t2 q (treeInv_empty b q) hst
    rw [hbase] at happ
    exact happ
  · refine ⟨⟨b, [TreeOp.create p c1, TreeOp.delete p]⟩, ?_, ?_⟩
    · simp [stageAll, stageOp, Tree.create, Tree.delete, currentExists,
        readPath, replayOp, hb]
    · simp [effectiveAction, effStep]
  · refine ⟨⟨b, [TreeOp.create p c1, TreeOp.overwrite p c2]⟩, ?_, ?_⟩
    · simp [stageAll, stageOp, Tree.create, Tree.overwrite, currentExists,
        readPath, replayOp, hb]
    · simp [effectiveAction, effStep]
  · intro t q c h
    simp [Tree.overwrite, h]
  · intro t q h
    simp [Tree.delete, h]

/-- C4 witness: the theorem applied to the empty base store at path `a`
with contents `1` and `2`. -/
theorem C4_tree_fold_and_preconditions_witness :
    (∀ ops t2, stageAll ⟨fun _ => none, []⟩ ops = .ok t2 →
      ∀ q, applyEff (effectiveAction t2 q) none = readPath t2 q) ∧
    (∃ t2, stageAll ⟨fun _ => none, []⟩ [TreeOp.create "a" "1", TreeOp.delete "a"] = .ok t2 ∧
      effectiveAction t2 "a" = .noChange) ∧
    (∃ t2, stageAll ⟨fun _ => none, []⟩
        [TreeOp.create "a" "1", TreeOp.overwrite "a" "2"] = .ok t2 ∧
      effectiveAction t2 "a" = .created "2") ∧
    (∀ t : Tree, ∀ q c, currentExists t q = false →
      t.overwrite q c = .error (.PathDoesNotExistError q)) ∧
    (∀ t : Tree, ∀ q, currentExists t q = false →
      t.delete q = .error (.PathDoesNotExistError q)) :=
  C4_tree_fold_and_preconditions (fun _ => none) "a" "1" "2" rfl

/-!
Part 3: `SchematicCommand.runSchematic` (test-utils.ts): the reporter and
lifeCycle subscriptions driving the dry-run logging queue, and the
terminal error handler of `workflow.execute`.
-/

/-- A dry-run reporter event, as the reporter subscription reads it. -/
inductive DryRunEvent where
  | errorEvent (path description : String)
  | update (path content : String)
  | create (path content : String)
  | delete (path : String)
  | rename (path toPath : String)
deriving DecidableEq, Repr

/-- The lifecycle event kinds a workflow emits. -/
inductive LifeCycleKind where
  | start
  | endKind
  | workflowStart
  | workflowEnd
  | postTasksStart
  | postTasksEnd
deriving DecidableEq, Repr

/-- One event of either subscription, in arrival order. -/
inductive WorkflowEvent where
  | reporter (e : DryRunEvent)
  | lifeCycle (k : LifeCycleKind)
deriving DecidableEq, Repr

/-- The mutable state of the two subscriptions: the buffered logging
queue, the error flag, and what has been written to the logger so far. -/
structure RunSchematicLogState where
  loggingQueue : List String
  error : Bool
  infoLog : List String
  warnLog : List String
deriving DecidableEq, Repr

/-- `event.path.startsWith('/') ? event.path.substr(1) : event.path`. -/
def stripLeadingSlash (p : String) : String :=
  match p.toList with
  | '/' :: rest => String.mk rest
  | _ => p

/-- The reporter subscription body: an error event warns at once and sets
the error flag; the four file events push a rendered message onto the
logging queue. -/
def reporterStep (s : RunSchematicLogState) : DryRunEvent → RunSchematicLogState
  | .errorEvent path description =>
    { s with
      error := true
      warnLog := s.warnLog ++
        ["ERROR! " ++ stripLeadingSlash path ++ " " ++
          (if description = "alreadyExist" then "already exists" else "does not exist.")
          ++ "."] }
  | .update path content =>
    { s with loggingQueue := s.loggingQueue ++
        ["UPDATE " ++ stripLeadingSlash path ++ " (" ++ toString content.length ++ " bytes)"] }
  | .create path content =>
    { s with loggingQueue := s.loggingQueue ++
        ["CREATE " ++ stripLeadingSlash path ++ " (" ++ toString content.length ++ " bytes)"] }
  | .delete path =>
    { s with loggingQueue := s.loggingQueue ++ ["DELETE " ++ stripLeadingSlash path] }
  | .rename path toPath =>
    { s with loggingQueue := s.loggingQueue ++
        ["RENAME " ++ stripLeadingSlash path ++ " => " ++ stripLeadingSlash toPath] }

/-- The lifeCycle subscription body: at an `end` or `post-tasks-start`
event the queue is flushed to the info logger when no error happened,
then the queue is cleared and the error flag reset; all other kinds do
nothing. -/
def lifeCycleStep (s : RunSchematicLogState) (k : LifeCycleKind) : RunSchematicLogState :=
  if k = .endKind ∨ k = .postTasksStart then
    { s with
      infoLog := if s.error then s.infoLog else s.infoLog ++ s.loggingQueue
      loggingQueue := []
      error := false }
  else s

/-- One step of the combined subscription state machine. -/
def runSchematicLogStep (s : RunSchematicLogState) : WorkflowEvent → RunSchematicLogState
  | .reporter e => reporterStep s e
  | .lifeCycle k => lifeCycleStep s k

/-- C5: queued dry-run messages reach the info logger only at an `end` or
`post-tasks-start` lifecycle event with the error flag clear, in which
case exactly the queue is appended; at such a boundary after an error the
queue is discarded unemitted; and every boundary clears the queue and the
error flag. -/
theorem C5_loggingQueue_flush (s : RunSchematicLogState) (e : WorkflowEvent) :
    ((runSchematicLogStep s e).infoLog ≠ s.infoLog →
      ∃ k, e = .lifeCycle k ∧ (k = .endKind ∨ k = .postTasksStart) ∧
        s.error = false ∧
        (runSchematicLogStep s e).infoLog = s.infoLog ++ s.loggingQueue) ∧
    (∀ k, e = .lifeCycle k → (k = .endKind ∨ k = .postTasksStart) →
      (runSchematicLogStep s e).loggingQueue = [] ∧
      (runSchematicLogStep s e).error = false ∧
      (s.error = true → (runSchematicLogStep s e).infoLog = s.infoLog)) := by
  constructor
  · intro hne
    cases e with
    | reporter ev =>
      exact absurd (by cases ev <;> rfl) hne
    | lifeCycle k =>
      by_cases hk : k = .endKind ∨ k = .postTasksStart
      · refine ⟨k, rfl, hk, ?_⟩
        cases herr : s.error with
        | true =>
          refine absurd ?_ hne
          simp [runSchematicLogStep, lifeCycleStep, hk, herr]
        | false =>
          constructor
          · rfl
          · simp [runSchematicLogStep, lifeCycleStep, hk, herr]
      · exact absurd (by simp [runSchematicLogStep, lifeCycleStep, hk]) hne
  · rintro k rfl hk
    refine ⟨?_, ?_, ?_⟩
    · simp [runSchematicLogStep, lifeCycleStep, hk]
    · simp [runSchematicLogStep, lifeCycleStep, hk]
    · intro herr
      simp [runSchematicLogStep, lifeCycleStep, hk, herr]

/-- C5 witness: a state with one queued message and the error flag set,
hit by an `end` event: the queue is discarded and nothing reaches the
info logger. -/
theorem C5_loggingQueue_flush_witness :
    (runSchematicLogStep ⟨["CREATE a (1 bytes)"], true, [], []⟩
        (.lifeCycle .endKind)).loggingQueue = [] ∧
    (runSchematicLogStep ⟨["CREATE a (1 bytes)"], true, [], []⟩
        (.lifeCycle .endKind)).error = false ∧
    ((⟨["CREATE a (1 bytes)"], true, [], []⟩ : RunSchematicLogState).error = true →
      (runSchematicLogStep ⟨["CREATE a (1 bytes)"], true, [], []⟩
        (.lifeCycle .endKind)).infoLog =
        (⟨["CREATE a (1 bytes)"], true, [], []⟩ : RunSchematicLogState).infoLog) :=
  (C5_loggingQueue_flush ⟨["CREATE a (1 bytes)"], true, [], []⟩
    (.lifeCycle .endKind)).2 .endKind rfl (Or.inl rfl)

/-- The error surfaced by `workflow.execute`: either the
`UnsuccessfulWorkflowExecution` marker or any other error, carrying its
message and stack. -/
inductive WorkflowError where
  | unsuccessfulWorkflowExecution
  | otherError (message stack : String)
deriving DecidableEq, Repr

/-- Which of the three fatal messages the error handler chooses: the
three branches of the `instanceof` / `debug` conditional. -/
inductive FatalMessage where
  | workflowFailed
  | errorWithStack (message stack : String)
  | errorMessage (message : String)
deriving DecidableEq, Repr

/-- The rendered fatal string of each branch. -/
def renderFatal : FatalMessage → String
  | .workflowFailed => "The Schematic workflow failed. See above."
  | .errorWithStack m st => "An error occurred:\n" ++ m ++ "\n" ++ st
  | .errorMessage m => m

/-- The branch chosen by the error handler of `runSchematic`:
`err instanceof UnsuccessfulWorkflowExecution` picks the workflow-failed
message; otherwise `debug` picks message plus stack; otherwise the error
message alone. -/
def chooseFatal (debug : Bool) (e : WorkflowError) : FatalMessage :=
  match e with
  | .unsuccessfulWorkflowExecution => .workflowFailed
  | .otherError m st => if debug then .errorWithStack m st else .errorMessage m

/-- What the error handler resolves and logs: exit code and the fatal
messages written. -/
structure ExecuteErrorResult where
  exitCode : Nat
  fatal : List String
deriving DecidableEq, Repr

/-- The whole error handler: log exactly one fatal message and resolve
with exit code 1. -/
def handleExecuteError (debug : Bool) (e : WorkflowError) : ExecuteErrorResult :=
  { exitCode := 1, fatal := [renderFatal (chooseFatal debug e)] }

/-- C6: every error from `workflow.execute` resolves `runSchematic` with
exit code 1 and exactly one terminal fatal message; the workflow-failed
message is chosen iff the error is `UnsuccessfulWorkflowExecution`, and
otherwise the message is the error message, with the stack appended
exactly when debug is set. -/
theorem C6_execute_error_handler (debug : Bool) (e : WorkflowError) :
    (handleExecuteError debug e).exitCode = 1 ∧
    (handleExecuteError debug e).fatal.length = 1 ∧
    (chooseFatal debug e = .workflowFailed ↔ e = .unsuccessfulWorkflowExecution) ∧
    (∀ m st, e = .otherError m st →
      (handleExecuteError debug e).fatal =
        [if debug then "An error occurred:\n" ++ m ++ "\n" ++ st else m]) := by
  refine ⟨rfl, rfl, ?_, ?_⟩
  · constructor
    · intro h
      cases e with
      | unsuccessfulWorkflowExecution => rfl
      | otherError m st =>
        cases debug <;> simp [chooseFatal] at h
    · intro h; subst h; rfl
  · rintro m st rfl
    cases debug <;> simp [handleExecuteError, chooseFatal, renderFatal]

/-- C6 witness: the three branches evaluated on concrete errors. -/
theorem C6_execute_error_handler_witness :
    (handleExecuteError true .unsuccessfulWorkflowExecution).exitCode = 1 ∧
    (chooseFatal true WorkflowError.unsuccessfulWorkflowExecution = .workflowFailed ↔
      WorkflowError.unsuccessfulWorkflowExecution =
        WorkflowError.unsuccessfulWorkflowExecution) ∧
    (handleExecuteError true (.otherError "boom" "stack")).fatal =
      ["An error occurred:\nboom\nstack"] ∧
    (handleExecuteError false (.otherError "boom" "stack")).fatal = ["boom"] :=
  ⟨(C6_execute_error_handler true .unsuccessfulWorkflowExecution).1,
   (C6_execute_error_handler true .unsuccessfulWorkflowExecution).2.2.1,
   (C6_execute_error_handler true (.otherError "boom" "stack")).2.2.2 "boom" "stack" rfl,
   (C6_execute_error_handler false (.otherError "boom" "stack")).2.2.2 "boom" "stack" rfl⟩

/-- A resolved collection, as `getCollection` returns it. -/
structure FileSystemCollection where
  name : String
deriving DecidableEq, Repr

/-- The errors `getCollection` can throw. -/
inductive CommandError where
  | UnknownCollectionError (collectionName : String)
deriving DecidableEq, Repr

/-- The engine boundary: `createCollection` yields a collection or
`null`. -/
structure FileSystemEngine where
  createCollection : String → Option FileSystemCollection

/-- `SchematicCommand.getCollection`: ask the engine, throw
`UnknownCollectionError` exactly on a `null` answer. -/
def getCollection (engine : FileSystemEngine) (collectionName : String) :
    Except CommandError FileSystemCollection :=
  match engine.createCollection collectionName with
  | none => .error (.UnknownCollectionError collectionName)
  | some c => .ok c

/-- C7: `getCollection` either returns the collection produced by the
engine or throws `UnknownCollectionError`, and it throws exactly when
`createCollection` returned `null`, never both. -/
theorem C7_getCollection_total (engine : FileSystemEngine) (n : String) :
    (getCollection engine n = .error (.UnknownCollectionError n) ↔
      engine.createCollection n = none) ∧
    (∀ c, getCollection engine n = .ok c ↔ engine.createCollection n = some c) := by
  constructor
  · cases h : engine.createCollection n <;> simp [getCollection, h]
  · intro c
    cases h : engine.createCollection n <;> simp [getCollection, h]

/-- C7 witness: a concrete engine knowing exactly one collection. -/
theorem C7_getCollection_total_witness :
    (getCollection ⟨fun n => if n = "c" then some ⟨"c"⟩ else none⟩ "missing" =
        .error (.UnknownCollectionError "missing") ↔
      (fun n => if n = "c" then some (⟨"c"⟩ : FileSystemCollection) else none) "missing"
        = none) ∧
    (getCollection ⟨fun n => if n = "c" then some ⟨"c"⟩ else none⟩ "c" = .ok ⟨"c"⟩ ↔
      (fun n => if n = "c" then some (⟨"c"⟩ : FileSystemCollection) else none) "c"
        = some ⟨"c"⟩) :=
  ⟨(C7_getCollection_total ⟨fun n => if n = "c" then some ⟨"c"⟩ else none⟩ "missing").1,
   (C7_getCollection_total ⟨fun n => if n = "c" then some ⟨"c"⟩ else none⟩ "c").2 ⟨"c"⟩⟩

/-!
Part 4: the ng-new rule task-registration step and the web-worker
schematic validation prefix.
-/

/-- The kinds of task the ng-new rule registers. -/
inductive TaskKind where
  | nodePackageInstall
  | nodePackageLink
  | repositoryInitializer
deriving DecidableEq, Repr

/-- A task as registered through `context.addTask`: its id, kind and the
ids it depends on. -/
structure RegisteredTask where
  id : Nat
  kind : TaskKind
  dependencies : List Nat
deriving DecidableEq, Repr

/-- The task-registration part of the schematic context: a monotonically
increasing id counter and the tasks registered so far. -/
structure TaskContext where
  nextId : Nat
  tasks : List RegisteredTask
deriving DecidableEq, Repr

/-- `context.addTask(task, dependencies)`: registers the task under a
fresh id and returns that id. -/
def TaskContext.addTask (ctx : TaskContext) (kind : TaskKind) (deps : List Nat) :
    Nat × TaskContext :=
  (ctx.nextId, { nextId := ctx.nextId + 1, tasks := ctx.tasks ++ [⟨ctx.nextId, kind, deps⟩] })

/-- The ng-new options the task-registration step reads. -/
structure NgNewTaskOptions where
  skipInstall : Bool
  linkCli : Bool
  skipGit : Bool
deriving DecidableEq, Repr

/-- The second rule of the ng-new chain (part_002 lines 78-107): register
the package-install task unless skipInstall; on linkCli register the
package-link task depending on it (and track the link task as the package
task); unless skipGit register the repository-initializer task depending
on the package task when one exists. -/
def ngNewRegisterTasks (options : NgNewTaskOptions) (ctx0 : TaskContext) : TaskContext :=
  let packageTask : Option Nat := none
  let (packageTask, ctx1) :=
    if !options.skipInstall then
      let (installId, ctxA) := ctx0.addTask .nodePackageInstall []
      if options.linkCli then
        let (linkId, ctxB) := ctxA.addTask .nodePackageLink [installId]
        (some linkId, ctxB)
      else (some installId, ctxA)
    else (packageTask, ctx0)
  if !options.skipGit then
    (ctx1.addTask .repositoryInitializer
      (match packageTask with | some i => [i] | none => [])).2
  else ctx1

/-- The tasks one ng-new execution registers, starting from a fresh
context whose counter stands at `n`. -/
def ngNewTasks (options : NgNewTaskOptions) (n : Nat) : List RegisteredTask :=
  (ngNewRegisterTasks options ⟨n, []⟩).tasks

/-- C8: in every execution of the ng-new task-registration step, task ids
are strictly increasing in registration order and every dependency of
every registered task is the id of an earlier-registered task (strictly
smaller id, present in the list), so the dependency graph has no forward
references and is acyclic; moreover the link task depends exactly on the
install task and the repository task depends on the latest package task
when one exists. -/
theorem C8_ngNew_task_dependencies (options : NgNewTaskOptions) (n : Nat) :
    (ngNewTasks options n).Pairwise (fun a b => a.id < b.id) ∧
    (∀ t ∈ ngNewTasks options n, ∀ d ∈ t.dependencies,
      d < t.id ∧ ∃ t2 ∈ ngNewTasks options n, t2.id = d) ∧
    (∀ t ∈ ngNewTasks options n, t.kind = .nodePackageLink →
      t.dependencies = [n]) ∧
    (∀ t ∈ ngNewTasks options n, t.kind = .repositoryInitializer →
      options.skipInstall = true → t.dependencies = []) := by
  obtain ⟨si, lc, sg⟩ := options
  cases si <;> cases lc <;> cases sg <;>
    simp_all [ngNewTasks, ngNewRegisterTasks, TaskContext.addTask]
  all_goals omega

/-- C8 witness: the execution with install, link and git all enabled,
started at id 0. -/
theorem C8_ngNew_task_dependencies_witness :
    (ngNewTasks ⟨false, true, false⟩ 0).Pairwise (fun a b => a.id < b.id) ∧
    (∀ t ∈ ngNewTasks ⟨false, true, false⟩ 0, ∀ d ∈ t.dependencies,
      d < t.id ∧ ∃ t2 ∈ ngNewTasks ⟨false, true, false⟩ 0, t2.id = d) ∧
    (∀ t ∈ ngNewTasks ⟨false, true, false⟩ 0, t.kind = .nodePackageLink →
      t.dependencies = [0]) ∧
    (∀ t ∈ ngNewTasks ⟨false, true, false⟩ 0, t.kind = .repositoryInitializer →
      (⟨false, true, false⟩ : NgNewTaskOptions).skipInstall = true →
      t.dependencies = []) :=
  C8_ngNew_task_dependencies ⟨false, true, false⟩ 0

/-- The web-worker schematic options the validation prefix reads.
`project` and `target` are JS strings that may be absent. -/
structure WebWorkerOptions where
  project : Option String
  target : Option String
deriving DecidableEq, Repr

/-- A workspace project as the schematic reads it: the `projectType`
extension and the names of its defined targets. -/
structure ProjectDefinition where
  projectType : Option String
  targets : List String
deriving DecidableEq, Repr

/-- The workspace: a partial map from project name to project. -/
structure WorkspaceDefinition where
  projects : String → Option ProjectDefinition

/-- An error thrown by the schematic rule: a `SchematicsException` or a
plain `Error`. -/
inductive SchematicRuleError where
  | schematicsException (message : String)
  | jsError (message : String)
deriving DecidableEq, Repr

/-- An action the web-worker rule stages on the Tree once validation
passed (the template contents themselves are external files and are
abstracted to their kind). -/
inductive WwAction where
  | addWorkerConfig
  | updateWorkspaceConfig
  | addSnippet
  | addWorkerFiles
deriving DecidableEq, Repr

/-- JS falsiness of an optional string option (`!options.project`):
absent or empty. -/
def jsFalsyOpt : Option String → Bool
  | none => true
  | some s => s = ""

/-- The web-worker default rule (part_003 lines 102-160) on a staged
tree: the validation prefix throws before anything is staged; once every
check passed, the chain stages its actions. -/
def webWorkerRule (ws : WorkspaceDefinition) (options : WebWorkerOptions)
    (tree : List WwAction) : List WwAction × Option SchematicRuleError :=
  if jsFalsyOpt options.project then
    (tree, some (.schematicsException "Option \"project\" is required."))
  else if jsFalsyOpt options.target then
    (tree, some (.schematicsException "Option \"target\" is required."))
  else
    let projectName := options.project.getD ""
    let targetName := options.target.getD ""
    match ws.projects projectName with
    | none =>
      (tree, some (.schematicsException ("Invalid project name (" ++ projectName ++ ")")))
    | some project =>
      if project.projectType ≠ some "application" then
        (tree, some (.schematicsException
          "Web Worker requires a project type of \"application\"."))
      else if targetName ∉ project.targets then
        (tree, some (.jsError "Target is not defined for this project."))
      else
        (tree ++ [.addWorkerConfig, .updateWorkspaceConfig, .addSnippet, .addWorkerFiles],
          none)

/-- C10: whenever the web-worker schematic options lack `project` or
`target`, or name a project that is not in the workspace or whose
project type is not `application`, the rule throws a
`SchematicsException` (and a plain `Error` when the project exists but
its target does not) before staging any action, so every failing run
leaves the Tree exactly as it was. -/
theorem C10_webWorker_validation (ws : WorkspaceDefinition)
    (options : WebWorkerOptions) (tree : List WwAction) :
    ((webWorkerRule ws options tree).2 ≠ none →
      (webWorkerRule ws options tree).1 = tree) ∧
    (options.project = none →
      (webWorkerRule ws options tree).2 =
        some (.schematicsException "Option \"project\" is required.")) ∧
    (∀ pn, options.project = some pn → pn ≠ "" → options.target = none →
      (webWorkerRule ws options tree).2 =
        some (.schematicsException "Option \"target\" is required.")) ∧
    (∀ pn tn, options.project = some pn → pn ≠ "" →
      options.target = some tn → tn ≠ "" →
      ws.projects pn = none →
      (webWorkerRule ws options tree).2 =
        some (.schematicsException ("Invalid project name (" ++ pn ++ ")"))) ∧
    (∀ pn tn project, options.project = some pn → pn ≠ "" →
      options.target = some tn → tn ≠ "" →
      ws.projects pn = some project → project.projectType ≠ some "application" →
      (webWorkerRule ws options tree).2 =
        some (.schematicsException
          "Web Worker requires a project type of \"application\".")) ∧
    (∀ pn tn project, options.project = some pn → pn ≠ "" →
      options.target = some tn → tn ≠ "" →
      ws.projects pn = some project → project.projectType = some "application" →
      tn ∉ project.targets →
      (webWorkerRule ws options tree).2 =
        some (.jsError "Target is not defined for this project.")) := by
  refine ⟨?_, ?_, ?_, ?_, ?_, ?_⟩
  · intro hne
    unfold webWorkerRule at hne ⊢
    by_cases h1 : jsFalsyOpt options.project = true
    · simp [h1]
    · by_cases h2 : jsFalsyOpt options.target = true
      · simp [h1, h2]
      · cases hp : ws.projects (options.project.getD "") with
        | none => simp [h1, h2, hp]
        | some project =>
          by_cases h3 : project.projectType = some "application"
          · by_cases h4 : (options.target.getD "") ∈ project.targets
            · exfalso
              apply hne
              simp [h1, h2, hp, h3, h4]
            · simp [h1, h2, hp, h3, h4]
          · simp [h1, h2, hp, h3]
  · intro h
    simp [webWorkerRule, jsFalsyOpt, h]
  · intro pn hpn hne h
    simp [webWorkerRule, jsFalsyOpt, hpn, hne, h]
  · intro pn tn hpn hpne htn htne hp
    simp [webWorkerRule, jsFalsyOpt, hpn, hpne, htn, htne, hp]
  · intro pn tn project hpn hpne htn htne hp htype
    simp [webWorkerRule, jsFalsyOpt, hpn, hpne, htn, htne, hp, htype]
  · intro pn tn project hpn hpne htn htne hp htype hmem
    simp [webWorkerRule, jsFalsyOpt, hpn, hpne, htn, htne, hp, htype, hmem]

/-- A concrete workspace for the C10 witness: one application project
`app` with a single target `build`. -/
def wsW : WorkspaceDefinition where
  projects := fun n =>
    if n = "app" then some { projectType := some "application", targets := ["build"] }
    else none

/-- C10 witness: a missing project option on a concrete workspace leaves
the tree unchanged and throws the required-project exception. -/
theorem C10_webWorker_validation_witness :
    (webWorkerRule wsW ⟨none, some "build"⟩ [.addWorkerFiles]).2 =
      some (.schematicsException "Option \"project\" is required.") ∧
    ((webWorkerRule wsW ⟨none, some "build"⟩ [.addWorkerFiles]).2 ≠ none →
      (webWorkerRule wsW ⟨none, some "build"⟩ [.addWorkerFiles]).1 = [.addWorkerFiles]) :=
  ⟨(C10_webWorker_validation wsW ⟨none, some "build"⟩ [.addWorkerFiles]).2.1 rfl,
   (C10_webWorker_validation wsW ⟨none, some "build"⟩ [.addWorkerFiles]).1⟩

end AngularCLI
